import Mathlib

/-!
Verification of the per-file review workflow of `search.py`
(Spotify playlist creation from a local file tree).

The Python source is shallowly embedded: pure helpers become Lean
functions, the mutable `SpotifyPlaylistApp` object becomes an explicit
`AppState` record threaded through the event handlers, and the external
collaborators (Spotify client, pygame mixer, filesystem) are modelled by
explicit parameters and state fields (a temp-file "disk", a single music
channel, an append/create call log).
-/

namespace SpotifySearch

/-- Python `str.lower()` restricted to ASCII case mapping, as applied to
file names and extensions. -/
def str_lower (s : String) : String :=
  String.mk (s.data.map Char.toLower)

/-- `os.path.splitext` applied to a bare file name (no directory
separators): splits at the last dot, except that a dot with only dots
before it starts no extension (so `".hidden"` has no extension).
Returns `(root, ext)` with the dot kept in `ext`. -/
def splitext (s : String) : String × String :=
  let p := s.data.reverse.span (fun c => c != '.')
  match p.2 with
  | [] => (s, "")
  | _ :: revRoot =>
    if revRoot.all (fun c => c == '.') then (s, "")
    else (String.mk revRoot.reverse, String.mk ('.' :: p.1.reverse))

/-- `BLACKLIST_EXTENSIONS` from `search.py` line 27. -/
def BLACKLIST_EXTENSIONS : List String := [".jpg", ".jpeg", ".png", ".gif"]

/-- A file produced by the recursive walk: the directory part (`root` in
`os.walk`) and the base name.  `os.path.join root base` is modelled by
the pair itself; `os.path.basename` of the joined path is `base`. -/
structure FileEntry where
  dir : String
  base : String
deriving DecidableEq, Repr

/-- The predicate of `get_audio_files`: keep a file iff
`splitext(filename)[1].lower() not in BLACKLIST_EXTENSIONS`. -/
def keep_file (fn : String) : Bool :=
  !(BLACKLIST_EXTENSIONS.contains (str_lower (splitext fn).2))

/-- `SpotifyPlaylistApp.get_audio_files`: the walk output is the list of
`(root, files)` pairs yielded by `os.walk` (an external collaborator);
the method keeps every file whose extension is not blacklisted, in walk
order. -/
def get_audio_files (walk : List (String × List String)) : List FileEntry :=
  walk.flatMap (fun rf =>
    (rf.2.filter keep_file).map (fun fn => FileEntry.mk rf.1 fn))

/-- All files found by the recursive walk, before filtering. -/
def walk_all_files (walk : List (String × List String)) : List FileEntry :=
  walk.flatMap (fun rf => rf.2.map (fun fn => FileEntry.mk rf.1 fn))

/-- The comparison used by `select_directory`:
`self.audio_files.sort(key=lambda x: os.path.basename(x).lower())`. -/
def file_le (a b : FileEntry) : Bool :=
  decide (str_lower a.base ≤ str_lower b.base)

/-- The sort performed in `select_directory` line 130 (`list.sort` with a
key is a stable sort by that key; modelled by `mergeSort`). -/
def sort_audio_files (files : List FileEntry) : List FileEntry :=
  files.mergeSort file_le

/-- `select_directory`: candidate files are the filtered walk output in
case-insensitive basename order. -/
def select_audio_files (walk : List (String × List String)) : List FileEntry :=
  sort_audio_files (get_audio_files walk)

/-- Python `str.strip()` with no argument: remove leading and trailing
whitespace. -/
def py_strip (s : String) : String :=
  String.mk (((s.data.dropWhile Char.isWhitespace).reverse.dropWhile
    Char.isWhitespace).reverse)

/-- Python truthiness of an optional string (`if title:`): `None` and
`""` are falsy. -/
def truthy : Option String → Bool
  | none => false
  | some s => !(s == "")

/-- The search-query prefill derivation of `show_file_prompt`
(lines 170–179 of `search.py`). -/
def prefill_text (title artist : Option String) (filename : String) : String :=
  if truthy title && truthy artist then
    title.getD "" ++ " " ++ artist.getD ""
  else if truthy title && !(truthy artist) then
    title.getD ""
  else if !(truthy title) && truthy artist then
    artist.getD ""
  else
    (splitext filename).1

/-- A catalog track as the workflow sees it (fields actually consumed by
the embedded handlers). -/
structure Track where
  uri : String
  type : String
  name : String
deriving DecidableEq, Repr

/-- Observable events of one handler run, used to state ordering
properties (what is cleared/stopped before the search request is made). -/
inductive Event
  | clearResults
  | stopPreview
  | searchRequest (query : String) (limit : Nat)
deriving DecidableEq, Repr

/-- How a handler run ended: returned normally, caught an exception and
showed it in a message box, or let an exception escape the handler. -/
inductive Outcome
  | normal
  | handledError
  | uncaught
deriving DecidableEq, Repr

/-- What the single `pygame.mixer.music` channel is currently playing. -/
inductive AudioSrc
  | localFile (f : FileEntry)
  | preview (tmp : Nat)
deriving DecidableEq, Repr

/-- The mutable state of `SpotifyPlaylistApp`, together with the
observable effects on the external collaborators: `create_calls` counts
`user_playlist_create` service calls, `append_calls` records every
successful `playlist_add_items` call, `disk` is the set of temporary
preview files existing on disk, `mixer` is the single pygame music
channel, `log` records handler events in execution order. -/
structure AppState where
  playlist_name : Option String
  sp : Bool
  audio_files : List FileEntry
  current_index : Nat
  skipped_songs : List String
  playlist_id : Option Nat
  create_calls : Nat
  append_calls : List (Nat × String)
  query_var : String
  track_var : String
  url_var : String
  displayed : List Track
  current_filepath : Option FileEntry
  preview_temp_path : Option Nat
  temp_counter : Nat
  disk : List Nat
  mixer : Option AudioSrc
  log : List Event
deriving DecidableEq, Repr

/-- `SpotifyPlaylistApp.create_playlist` (lines 115–120): only acts when
the playlist name is truthy and the client exists; performs one
`user_playlist_create` service call and stores the returned id.  The
catalog calls `sp.current_user()` / `sp.user_playlist_create(...)`
(lines 118–119) are bare network calls with no `try/except` around them:
`create_ok = false` models one of them raising, which aborts the whole
handler (`uncaught`) before any state change. -/
def create_playlist (create_ok : Bool) (s : AppState) : AppState × Outcome :=
  if truthy s.playlist_name && s.sp then
    if create_ok then
      ({ s with
          playlist_id := some s.create_calls
          create_calls := s.create_calls + 1 },
       Outcome.normal)
    else (s, Outcome.uncaught)
  else (s, Outcome.normal)

/-- `stop_local_audio` (line 425): `pygame.mixer.music.stop()`. -/
def stop_local_audio (s : AppState) : AppState :=
  { s with mixer := none }

/-- `stop_preview_audio` (lines 383–391): stop the music channel, then
try to remove the temporary preview file.  The `os.remove` is wrapped in
`try/except` (lines 387–390): `remove_ok = false` models it failing, in
which case the file stays on disk; the stored path is cleared in either
case (line 391). -/
def stop_preview_audio (remove_ok : Bool) (s : AppState) : AppState :=
  { s with
    mixer := none
    disk := match s.preview_temp_path with
      | some t => if remove_ok then s.disk.filter (fun u => u != t) else s.disk
      | none => s.disk
    preview_temp_path := none
    log := s.log ++ [Event.stopPreview] }

/-- `go_to_next_file` (lines 408–413): stop local playback, stop any
preview, advance the cursor.  The subsequent `show_file_prompt`
re-rendering is modelled separately (`prefill_text`, `search_spotify`). -/
def go_to_next_file (remove_ok : Bool) (s : AppState) : AppState :=
  let s1 := stop_preview_audio remove_ok (stop_local_audio s)
  { s1 with current_index := s1.current_index + 1 }

/-- `skip_file` (lines 402–406): record the current basename in the
skipped list and advance.  Indexing out of range would raise
(`uncaught`); the UI only offers Skip while a file is displayed. -/
def skip_file (remove_ok : Bool) (s : AppState) : AppState × Outcome :=
  match s.audio_files.get? s.current_index with
  | none => (s, Outcome.uncaught)
  | some f =>
    (go_to_next_file remove_ok
      { s with skipped_songs := s.skipped_songs ++ [f.base] },
     Outcome.normal)

/-- `if self.playlist_id is None: self.create_playlist()` — the lazy
creation guard shared by `add_track_by_url` and `add_to_playlist`.  A
raising creation call propagates (`uncaught`): in both callers this
guard sits outside any `try` block. -/
def lazyCreate (create_ok : Bool) (s : AppState) : AppState × Outcome :=
  if s.playlist_id.isNone then create_playlist create_ok s
  else (s, Outcome.normal)

/-- The `try` block of `add_track_by_url` (lines 271–283), run after the
lazy creation.  `lookup` is the outcome of `sp.track(track_url)`
(`Except.error` = the call raised); `append_ok` says whether
`playlist_add_items` succeeds.  Every failure in here is caught by the
`except` clause and shown in a message box. -/
def addUrlTry (lookup : Except Unit Track) (append_ok remove_ok : Bool)
    (s1 : AppState) : AppState × Outcome :=
  if !s1.sp then (s1, Outcome.handledError)
  else
    match lookup with
    | Except.error _ => (s1, Outcome.handledError)
    | Except.ok t =>
      if t.type == "track" then
        match s1.playlist_id with
        | none => (s1, Outcome.handledError)
        | some pid =>
          if append_ok then
            (go_to_next_file remove_ok
              { s1 with append_calls := s1.append_calls ++ [(pid, t.uri)] },
             Outcome.normal)
          else (s1, Outcome.handledError)
      else (s1, Outcome.handledError)

/-- `add_track_by_url` (lines 259–283): reject an empty url, lazily
create the playlist (line 270, before the `try` at line 271 — a raising
creation escapes), then run the guarded lookup-and-append. -/
def add_track_by_url (lookup : Except Unit Track)
    (append_ok create_ok remove_ok : Bool) (s : AppState) :
    AppState × Outcome :=
  if py_strip s.url_var == "" then (s, Outcome.handledError)
  else
    match lazyCreate create_ok s with
    | (s1, Outcome.normal) => addUrlTry lookup append_ok remove_ok s1
    | other => other

/-- The body of `add_to_playlist` after the lazy creation (lines
397–400): append the selected track if its uri is non-empty, then
advance.  The append is NOT wrapped in `try/except`: a raising
`playlist_add_items` escapes the handler (`uncaught`) before
`go_to_next_file` runs. -/
def addCommit (append_ok remove_ok : Bool) (s1 : AppState) :
    AppState × Outcome :=
  if s1.track_var == "" then (go_to_next_file remove_ok s1, Outcome.normal)
  else
    match s1.playlist_id with
    | none => (s1, Outcome.uncaught)
    | some pid =>
      if !s1.sp then (s1, Outcome.uncaught)
      else if append_ok then
        (go_to_next_file remove_ok
          { s1 with append_calls := s1.append_calls ++ [(pid, s1.track_var)] },
         Outcome.normal)
      else (s1, Outcome.uncaught)

/-- `add_to_playlist` (lines 393–400): the lazy creation (line 396) is
outside any `try`, so a raising creation call escapes the handler before
any append or advance. -/
def add_to_playlist (append_ok create_ok remove_ok : Bool) (s : AppState) :
    AppState × Outcome :=
  match lazyCreate create_ok s with
  | (s1, Outcome.normal) => addCommit append_ok remove_ok s1
  | other => other

/-- The part of `search_spotify` from the empty-query check on
(lines 292–305): submit `sp.search(q, limit=5, type=track)` (NOT wrapped
in `try/except`) and render the results with the top one selected by
default. -/
def search_submit (resp : Except Unit (List Track)) (s1 : AppState) :
    AppState × Outcome :=
  if py_strip s1.query_var == "" then (s1, Outcome.normal)
  else if !s1.sp then (s1, Outcome.uncaught)
  else
    let s2 := { s1 with
      log := s1.log ++ [Event.searchRequest (py_strip s1.query_var) 5] }
    match resp with
    | Except.error _ => (s2, Outcome.uncaught)
    | Except.ok [] => (s2, Outcome.normal)
    | Except.ok (t :: ts) =>
      ({ s2 with track_var := t.uri, displayed := t :: ts }, Outcome.normal)

/-- `search_spotify` (lines 285–305): destroy the previous result
widgets, stop any preview, then submit the query. -/
def search_spotify (resp : Except Unit (List Track)) (remove_ok : Bool)
    (s : AppState) : AppState × Outcome :=
  search_submit resp (stop_preview_audio remove_ok
    { s with displayed := [], log := s.log ++ [Event.clearResults] })

/-- `play_spotify_preview` (lines 362–381): stop any current preview
first; on a truthy url and successful download, write a fresh temporary
file and play it; download errors are caught and shown. -/
def play_spotify_preview (url_truthy download_ok remove_ok : Bool)
    (s : AppState) : AppState × Outcome :=
  let s1 := stop_preview_audio remove_ok s
  if !url_truthy then (s1, Outcome.normal)
  else if !download_ok then (s1, Outcome.handledError)
  else
    let t := s1.temp_counter
    ({ s1 with
        disk := t :: s1.disk
        preview_temp_path := some t
        temp_counter := t + 1
        mixer := some (AudioSrc.preview t) },
     Outcome.normal)

/-- `play_local_audio` (lines 415–423): stop whatever the channel is
playing (`stop_local_audio`), then, if the current file is set and
exists on disk (`file_exists`), load and play it; a load/play error is
caught and shown (`load_ok = false`), leaving nothing playing.  The
preview temp file is NOT removed here. -/
def play_local_audio (file_exists load_ok : Bool) (s : AppState) :
    AppState × Outcome :=
  let s1 := stop_local_audio s
  match s1.current_filepath with
  | some f =>
    if file_exists then
      if load_ok then
        ({ s1 with mixer := some (AudioSrc.localFile f) }, Outcome.normal)
      else (s1, Outcome.handledError)
    else (s1, Outcome.normal)
  | none => (s1, Outcome.normal)

/-- One user-triggered handler invocation within a review session, with
the external outcomes (catalog responses, download success, creation
success, temp-file removal success, file existence) as data. -/
inductive Op
  | skip (remove_ok : Bool)
  | addUrl (lookup : Except Unit Track) (append_ok create_ok remove_ok : Bool)
  | addSearch (append_ok create_ok remove_ok : Bool)
  | search (resp : Except Unit (List Track)) (remove_ok : Bool)
  | playPreview (url_truthy download_ok remove_ok : Bool)
  | playLocal (file_exists load_ok : Bool)
  | stopPreviewBtn (remove_ok : Bool)
  | stopLocalBtn

/-- Dispatch one handler invocation. -/
def step : Op → AppState → AppState × Outcome
  | Op.skip rok, s => skip_file rok s
  | Op.addUrl l aok cok rok, s => add_track_by_url l aok cok rok s
  | Op.addSearch aok cok rok, s => add_to_playlist aok cok rok s
  | Op.search r rok, s => search_spotify r rok s
  | Op.playPreview u d rok, s => play_spotify_preview u d rok s
  | Op.playLocal fe lo, s => play_local_audio fe lo s
  | Op.stopPreviewBtn rok, s => (stop_preview_audio rok s, Outcome.normal)
  | Op.stopLocalBtn, s => (stop_local_audio s, Outcome.normal)

/-- Run a sequence of handler invocations, keeping post-states only. -/
def runOps : List Op → AppState → AppState
  | [], s => s
  | op :: rest, s => runOps rest (step op s).1

/-- The invocation ran to completion (returned without an exception). -/
def Completed (op : Op) (s : AppState) : Prop :=
  (step op s).2 = Outcome.normal

/-- Every invocation in the sequence runs to completion from the state it
is invoked in. -/
inductive AllCompleted : List Op → AppState → Prop
  | nil (s : AppState) : AllCompleted [] s
  | cons {op : Op} {rest : List Op} {s : AppState} :
      Completed op s → AllCompleted rest (step op s).1 →
      AllCompleted (op :: rest) s

/-- The skip and add operations (the ones the cursor claims quantify
over). -/
def IsSkipOrAdd : Op → Prop
  | Op.skip _ => True
  | Op.addUrl _ _ _ _ => True
  | Op.addSearch _ _ _ => True
  | _ => False

/-- The add operations (by direct reference or by search commit). -/
def IsAdd : Op → Prop
  | Op.addUrl _ _ _ _ => True
  | Op.addSearch _ _ _ => True
  | _ => False

lemma file_le_trans (a b c : FileEntry) :
    file_le a b → file_le b c → file_le a c := by
  simp only [file_le, decide_eq_true_eq]
  exact le_trans

lemma file_le_total (a b : FileEntry) : file_le a b || file_le b a := by
  simp only [file_le, Bool.or_eq_true, decide_eq_true_eq]
  exact le_total _ _

/-- C1: for every directory walk, the enumerated candidate files exclude
exactly the paths whose extension case-insensitively matches the
deny-list `[".jpg", ".jpeg", ".png", ".gif"]`, include every other file
found by the recursive walk, and the resulting list is sorted by
case-insensitive basename. -/
theorem candidate_files_spec (walk : List (String × List String))
    (e : FileEntry) :
    (e ∈ select_audio_files walk ↔
      e ∈ walk_all_files walk ∧
        str_lower (splitext e.base).2 ∉ BLACKLIST_EXTENSIONS) ∧
    (select_audio_files walk).Pairwise
      (fun a b => str_lower a.base ≤ str_lower b.base) := by
  constructor
  · simp only [select_audio_files, sort_audio_files, List.mem_mergeSort,
      get_audio_files, walk_all_files, List.mem_flatMap, List.mem_map,
      List.mem_filter, keep_file, Bool.not_eq_eq_eq_not, Bool.not_true]
    constructor
    · rintro ⟨rf, hrf, fn, ⟨hfn, hkeep⟩, rfl⟩
      refine ⟨⟨rf, hrf, fn, hfn, rfl⟩, ?_⟩
      simpa using hkeep
    · rintro ⟨⟨rf, hrf, fn, hfn, rfl⟩, hkeep⟩
      refine ⟨rf, hrf, fn, ⟨hfn, ?_⟩, rfl⟩
      simpa using hkeep
  · have h := List.sorted_mergeSort file_le_trans
      file_le_total (get_audio_files walk)
    exact h.imp (fun hab => by
      simpa only [file_le, decide_eq_true_eq] using hab)

/-- C2: the derived default search query is `"title artist"` when both
local fields are present (Python-truthy), the one present field when
exactly one is present, and the filename with its extension stripped when
neither is present. -/
theorem prefill_text_spec (title artist : Option String) (fn : String) :
    (truthy title = true → truthy artist = true →
      prefill_text title artist fn = title.getD "" ++ " " ++ artist.getD "") ∧
    (truthy title = true → truthy artist = false →
      prefill_text title artist fn = title.getD "") ∧
    (truthy title = false → truthy artist = true →
      prefill_text title artist fn = artist.getD "") ∧
    (truthy title = false → truthy artist = false →
      prefill_text title artist fn = (splitext fn).1) := by
  refine ⟨fun h1 h2 => ?_, fun h1 h2 => ?_, fun h1 h2 => ?_, fun h1 h2 => ?_⟩ <;>
    simp [prefill_text, h1, h2]

/-- Witness for C2 at concrete inputs: tagged file and untagged file. -/
theorem prefill_text_spec_witness :
    prefill_text (some "Song B") (some "Artist X") "b.mp3" =
      (some "Song B").getD "" ++ " " ++ (some "Artist X").getD "" ∧
    prefill_text (none : Option String) none "a.mp3" = (splitext "a.mp3").1 :=
  ⟨(prefill_text_spec (some "Song B") (some "Artist X") "b.mp3").1
      (by decide) (by decide),
   (prefill_text_spec none none "a.mp3").2.2.2 rfl rfl⟩

lemma lazyCreate_fields (cok : Bool) (s : AppState) :
    (lazyCreate cok s).1.current_index = s.current_index ∧
    (lazyCreate cok s).1.skipped_songs = s.skipped_songs ∧
    (lazyCreate cok s).1.append_calls = s.append_calls ∧
    (lazyCreate cok s).1.track_var = s.track_var ∧
    (lazyCreate cok s).1.sp = s.sp ∧
    (lazyCreate cok s).1.playlist_name = s.playlist_name ∧
    (lazyCreate cok s).1.audio_files = s.audio_files := by
  unfold lazyCreate create_playlist
  repeat' split
  all_goals exact ⟨rfl, rfl, rfl, rfl, rfl, rfl, rfl⟩

lemma lazyCreate_outcome (cok : Bool) (s : AppState) :
    (lazyCreate cok s).2 = Outcome.normal ∨
    ((lazyCreate cok s).1 = s ∧ (lazyCreate cok s).2 = Outcome.uncaught) := by
  unfold lazyCreate create_playlist
  repeat' split
  all_goals first
    | exact Or.inl rfl
    | exact Or.inr ⟨rfl, rfl⟩

lemma add_track_by_url_eq (l : Except Unit Track) (aok cok rok : Bool)
    (s : AppState) :
    add_track_by_url l aok cok rok s =
      if py_strip s.url_var == "" then (s, Outcome.handledError)
      else if (lazyCreate cok s).2 = Outcome.normal then
        addUrlTry l aok rok (lazyCreate cok s).1
      else lazyCreate cok s := by
  unfold add_track_by_url
  rcases hp : lazyCreate cok s with ⟨s1, o⟩
  cases o <;> simp

lemma add_to_playlist_eq (aok cok rok : Bool) (s : AppState) :
    add_to_playlist aok cok rok s =
      if (lazyCreate cok s).2 = Outcome.normal then
        addCommit aok rok (lazyCreate cok s).1
      else lazyCreate cok s := by
  unfold add_to_playlist
  rcases hp : lazyCreate cok s with ⟨s1, o⟩
  cases o <;> simp

lemma addUrlTry_index_mono (l : Except Unit Track) (aok rok : Bool)
    (s1 : AppState) :
    s1.current_index ≤ (addUrlTry l aok rok s1).1.current_index := by
  unfold addUrlTry
  repeat' split
  all_goals try simp [go_to_next_file, stop_preview_audio, stop_local_audio]

lemma addCommit_index_mono (aok rok : Bool) (s1 : AppState) :
    s1.current_index ≤ (addCommit aok rok s1).1.current_index := by
  unfold addCommit
  repeat' split
  all_goals try simp [go_to_next_file, stop_preview_audio, stop_local_audio]

lemma addUrlTry_env (l : Except Unit Track) (aok rok : Bool) (s1 : AppState) :
    (addUrlTry l aok rok s1).1.playlist_name = s1.playlist_name ∧
    (addUrlTry l aok rok s1).1.sp = s1.sp := by
  unfold addUrlTry
  repeat' split
  all_goals try simp [go_to_next_file, stop_preview_audio, stop_local_audio]

lemma addCommit_env (aok rok : Bool) (s1 : AppState) :
    (addCommit aok rok s1).1.playlist_name = s1.playlist_name ∧
    (addCommit aok rok s1).1.sp = s1.sp := by
  unfold addCommit
  repeat' split
  all_goals try simp [go_to_next_file, stop_preview_audio, stop_local_audio]

lemma step_index_mono (op : Op) (s : AppState) :
    s.current_index ≤ (step op s).1.current_index := by
  cases op with
  | addUrl l aok cok rok =>
    show s.current_index ≤ (add_track_by_url l aok cok rok s).1.current_index
    rw [add_track_by_url_eq]
    have hf := (lazyCreate_fields cok s).1
    have hm := addUrlTry_index_mono l aok rok (lazyCreate cok s).1
    repeat' split
    · exact Nat.le_refl _
    · omega
    · omega
  | addSearch aok cok rok =>
    show s.current_index ≤ (add_to_playlist aok cok rok s).1.current_index
    rw [add_to_playlist_eq]
    have hf := (lazyCreate_fields cok s).1
    have hm := addCommit_index_mono aok rok (lazyCreate cok s).1
    repeat' split
    · omega
    · omega
  | skip rok =>
    simp only [step, skip_file, go_to_next_file, stop_preview_audio,
      stop_local_audio]
    repeat' split
    all_goals try simp
  | search r rok =>
    simp only [step, search_spotify, search_submit, stop_preview_audio]
    repeat' split
    all_goals try simp
  | playPreview u d rok =>
    simp only [step, play_spotify_preview, stop_preview_audio]
    repeat' split
    all_goals try simp
  | playLocal fe lo =>
    simp only [step, play_local_audio, stop_local_audio]
    repeat' split
    all_goals try simp
  | stopPreviewBtn rok =>
    simp only [step, stop_preview_audio]
    try simp
  | stopLocalBtn =>
    simp only [step, stop_local_audio]
    try simp

lemma step_preserves_env (op : Op) (s : AppState) :
    (step op s).1.playlist_name = s.playlist_name ∧ (step op s).1.sp = s.sp := by
  cases op with
  | addUrl l aok cok rok =>
    show (add_track_by_url l aok cok rok s).1.playlist_name = s.playlist_name ∧
      (add_track_by_url l aok cok rok s).1.sp = s.sp
    rw [add_track_by_url_eq]
    have hf := lazyCreate_fields cok s
    have he := addUrlTry_env l aok rok (lazyCreate cok s).1
    repeat' split
    · exact ⟨rfl, rfl⟩
    · rw [he.1, he.2, hf.2.2.2.2.1, hf.2.2.2.2.2.1]
      exact ⟨rfl, rfl⟩
    · rw [hf.2.2.2.2.1, hf.2.2.2.2.2.1]
      exact ⟨rfl, rfl⟩
  | addSearch aok cok rok =>
    show (add_to_playlist aok cok rok s).1.playlist_name = s.playlist_name ∧
      (add_to_playlist aok cok rok s).1.sp = s.sp
    rw [add_to_playlist_eq]
    have hf := lazyCreate_fields cok s
    have he := addCommit_env aok rok (lazyCreate cok s).1
    repeat' split
    · rw [he.1, he.2, hf.2.2.2.2.1, hf.2.2.2.2.2.1]
      exact ⟨rfl, rfl⟩
    · rw [hf.2.2.2.2.1, hf.2.2.2.2.2.1]
      exact ⟨rfl, rfl⟩
  | skip rok =>
    simp only [step, skip_file, go_to_next_file, stop_preview_audio,
      stop_local_audio]
    repeat' split
    all_goals try simp
  | search r rok =>
    simp only [step, search_spotify, search_submit, stop_preview_audio]
    repeat' split
    all_goals try simp
  | playPreview u d rok =>
    simp only [step, play_spotify_preview, stop_preview_audio]
    repeat' split
    all_goals try simp
  | playLocal fe lo =>
    simp only [step, play_local_audio, stop_local_audio]
    repeat' split
    all_goals try simp
  | stopPreviewBtn rok =>
    simp only [step, stop_preview_audio]
    try simp
  | stopLocalBtn =>
    simp only [step, stop_local_audio]
    try simp

lemma skip_file_index (rok : Bool) (s : AppState)
    (h : (skip_file rok s).2 = Outcome.normal) :
    (skip_file rok s).1.current_index = s.current_index + 1 := by
  unfold skip_file at h ⊢
  repeat' split at h
  all_goals simp_all [go_to_next_file, stop_preview_audio, stop_local_audio]

lemma addUrlTry_index (l : Except Unit Track) (aok rok : Bool) (s1 : AppState)
    (h : (addUrlTry l aok rok s1).2 = Outcome.normal) :
    (addUrlTry l aok rok s1).1.current_index = s1.current_index + 1 := by
  unfold addUrlTry at h ⊢
  repeat' split at h
  all_goals simp_all [go_to_next_file, stop_preview_audio, stop_local_audio]

lemma addCommit_index (aok rok : Bool) (s1 : AppState)
    (h : (addCommit aok rok s1).2 = Outcome.normal) :
    (addCommit aok rok s1).1.current_index = s1.current_index + 1 := by
  unfold addCommit at h ⊢
  repeat' split at h
  all_goals simp_all [go_to_next_file, stop_preview_audio, stop_local_audio]

lemma add_track_by_url_index (l : Except Unit Track) (aok cok rok : Bool)
    (s : AppState)
    (h : (add_track_by_url l aok cok rok s).2 = Outcome.normal) :
    (add_track_by_url l aok cok rok s).1.current_index =
      s.current_index + 1 := by
  rw [add_track_by_url_eq] at h ⊢
  have hf := (lazyCreate_fields cok s).1
  by_cases hurl : (py_strip s.url_var == "") = true
  · rw [if_pos hurl] at h
    cases h
  · rcases lazyCreate_outcome cok s with hn | ⟨_, hu⟩
    · rw [if_neg hurl, if_pos hn] at h ⊢
      rw [addUrlTry_index l aok rok _ h, hf]
    · rw [if_neg hurl, if_neg (by simp [hu])] at h
      rw [hu] at h
      cases h

lemma add_to_playlist_index (aok cok rok : Bool) (s : AppState)
    (h : (add_to_playlist aok cok rok s).2 = Outcome.normal) :
    (add_to_playlist aok cok rok s).1.current_index = s.current_index + 1 := by
  rw [add_to_playlist_eq] at h ⊢
  have hf := (lazyCreate_fields cok s).1
  rcases lazyCreate_outcome cok s with hn | ⟨_, hu⟩
  · rw [if_pos hn] at h ⊢
    rw [addCommit_index aok rok _ h, hf]
  · rw [if_neg (by simp [hu])] at h
    rw [hu] at h
    cases h

lemma step_completed_index (op : Op) (s : AppState)
    (hop : IsSkipOrAdd op) (h : Completed op s) :
    (step op s).1.current_index = s.current_index + 1 := by
  cases op with
  | skip rok => exact skip_file_index rok s h
  | addUrl l aok cok rok => exact add_track_by_url_index l aok cok rok s h
  | addSearch aok cok rok => exact add_to_playlist_index aok cok rok s h
  | search r rok => simp [IsSkipOrAdd] at hop
  | playPreview u d rok => simp [IsSkipOrAdd] at hop
  | playLocal fe lo => simp [IsSkipOrAdd] at hop
  | stopPreviewBtn rok => simp [IsSkipOrAdd] at hop
  | stopLocalBtn => simp [IsSkipOrAdd] at hop

/-- C6: any sequence of completed skip/add operations advances the cursor
by exactly its length, and no operation ever decreases the cursor. -/
theorem cursor_monotonicity (ops : List Op) (s : AppState)
    (hops : ∀ op ∈ ops, IsSkipOrAdd op) (hcomp : AllCompleted ops s) :
    (runOps ops s).current_index = s.current_index + ops.length ∧
    ∀ (op : Op) (t : AppState), t.current_index ≤ (step op t).1.current_index := by
  refine ⟨?_, fun op t => step_index_mono op t⟩
  induction ops generalizing s with
  | nil => simp [runOps]
  | cons op rest ih =>
    cases hcomp with
    | cons hc hrest =>
      have h1 := step_completed_index op s (hops op (by simp)) hc
      have h2 := ih (step op s).1 (fun o ho => hops o (by simp [ho])) hrest
      simp only [runOps, List.length_cons]
      rw [h2, h1]
      omega

lemma step_skip_fields (rok : Bool) (s : AppState) (f : FileEntry)
    (h : s.audio_files[s.current_index]? = some f) :
    (step (Op.skip rok) s).1.skipped_songs = s.skipped_songs ++ [f.base] ∧
    (step (Op.skip rok) s).1.current_index = s.current_index + 1 ∧
    (step (Op.skip rok) s).1.audio_files = s.audio_files ∧
    (step (Op.skip rok) s).1.append_calls = s.append_calls ∧
    (step (Op.skip rok) s).1.create_calls = s.create_calls := by
  simp [step, skip_file, h, go_to_next_file, stop_preview_audio,
    stop_local_audio]

/-- C7: skipping appends the current basename to the end of the skipped
list — a run of `n` skips records exactly the basenames of the skipped
files in order — and causes no playlist creation or append. -/
theorem skip_bookkeeping (s : AppState) (n : Nat) (rok : Bool)
    (h : s.current_index + n ≤ s.audio_files.length) :
    (runOps (List.replicate n (Op.skip rok)) s).skipped_songs =
      s.skipped_songs ++
        ((s.audio_files.drop s.current_index).take n).map FileEntry.base ∧
    (runOps (List.replicate n (Op.skip rok)) s).append_calls =
      s.append_calls ∧
    (runOps (List.replicate n (Op.skip rok)) s).create_calls =
      s.create_calls := by
  induction n generalizing s with
  | zero => simp [runOps]
  | succ n ih =>
    have hlt : s.current_index < s.audio_files.length := by omega
    have hget : s.audio_files[s.current_index]? =
        some (s.audio_files[s.current_index]) := by
      simp [hlt]
    rw [List.replicate_succ]
    simp only [runOps]
    obtain ⟨h1, h2, h3, h4, h5⟩ := step_skip_fields rok s _ hget
    obtain ⟨ih1, ih2, ih3⟩ :=
      ih ((step (Op.skip rok) s).1) (by rw [h2, h3]; omega)
    refine ⟨?_, by rw [ih2, h4], by rw [ih3, h5]⟩
    rw [ih1, h1, h2, h3, List.drop_eq_getElem_cons hlt,
      List.take_succ_cons, List.map_cons, List.append_assoc,
      List.singleton_append]

/-- The at-most-one-creation session invariant: no creation and no
appends before the playlist id exists; exactly one creation and all
appends against the stored id afterwards. -/
def PlaylistInv (s : AppState) : Prop :=
  (s.playlist_id = none → s.create_calls = 0 ∧ s.append_calls = []) ∧
  ∀ pid, s.playlist_id = some pid →
    s.create_calls = 1 ∧ ∀ e ∈ s.append_calls, e.1 = pid

lemma playlistInv_of_fields {s t : AppState}
    (hid : t.playlist_id = s.playlist_id)
    (hc : t.create_calls = s.create_calls)
    (ha : t.append_calls = s.append_calls)
    (h : PlaylistInv s) : PlaylistInv t := by
  rw [PlaylistInv, hid, hc, ha]
  exact h

lemma go_to_next_file_playlist_fields (rok : Bool) (s : AppState) :
    (go_to_next_file rok s).playlist_id = s.playlist_id ∧
    (go_to_next_file rok s).create_calls = s.create_calls ∧
    (go_to_next_file rok s).append_calls = s.append_calls := by
  simp [go_to_next_file, stop_preview_audio, stop_local_audio]

lemma lazyCreate_PlaylistInv (cok : Bool) {s : AppState} (h : PlaylistInv s) :
    PlaylistInv (lazyCreate cok s).1 := by
  unfold lazyCreate
  split
  · next hn =>
    obtain ⟨hc, ha⟩ := h.1 (Option.isNone_iff_eq_none.mp hn)
    unfold create_playlist
    split
    · split
      · refine ⟨by simp, fun pid hpid => ?_⟩
        obtain rfl : s.create_calls = pid := by simpa using hpid
        exact ⟨by simp [hc], by simp [ha]⟩
      · exact h
    · exact h
  · exact h

lemma addUrlTry_PlaylistInv (l : Except Unit Track) (aok rok : Bool)
    {s1 : AppState} (h : PlaylistInv s1) :
    PlaylistInv (addUrlTry l aok rok s1).1 := by
  unfold addUrlTry
  repeat' split
  all_goals try exact h
  all_goals
    refine playlistInv_of_fields (go_to_next_file_playlist_fields rok _).1
      (go_to_next_file_playlist_fields rok _).2.1
      (go_to_next_file_playlist_fields rok _).2.2 ?_
  next pid heq hok =>
    obtain ⟨hc1, ha1⟩ := h.2 pid heq
    refine ⟨by simp [heq], fun pid2 hpid2 => ?_⟩
    obtain rfl : pid = pid2 := by
      simp only [heq] at hpid2
      simpa using hpid2
    refine ⟨by simpa using hc1, fun e he => ?_⟩
    simp only [List.mem_append] at he
    rcases he with h1 | h1
    · exact ha1 e h1
    · simp only [List.mem_singleton] at h1
      subst h1
      rfl

lemma addCommit_PlaylistInv (aok rok : Bool) {s1 : AppState}
    (h : PlaylistInv s1) : PlaylistInv (addCommit aok rok s1).1 := by
  unfold addCommit
  repeat' split
  all_goals
    refine playlistInv_of_fields (go_to_next_file_playlist_fields rok _).1
      (go_to_next_file_playlist_fields rok _).2.1
      (go_to_next_file_playlist_fields rok _).2.2 ?_
  all_goals try exact h
  next x pid heq hsp hok =>
    obtain ⟨hc1, ha1⟩ := h.2 pid heq
    refine ⟨by simp [heq], fun pid2 hpid2 => ?_⟩
    obtain rfl : pid = pid2 := by
      simp only [heq] at hpid2
      simpa using hpid2
    refine ⟨by simpa using hc1, fun e he => ?_⟩
    simp only [List.mem_append] at he
    rcases he with h1 | h1
    · exact ha1 e h1
    · simp only [List.mem_singleton] at h1
      subst h1
      rfl

lemma step_other_playlist_fields (op : Op) (s : AppState) (hop : ¬ IsAdd op) :
    (step op s).1.playlist_id = s.playlist_id ∧
    (step op s).1.create_calls = s.create_calls ∧
    (step op s).1.append_calls = s.append_calls := by
  cases op <;>
    first
      | exact absurd trivial hop
      | (simp only [step, skip_file, search_spotify, search_submit,
          play_spotify_preview, play_local_audio, stop_preview_audio,
          stop_local_audio, go_to_next_file]
         repeat' split
         all_goals try simp)

lemma step_PlaylistInv (op : Op) (s : AppState) (h : PlaylistInv s) :
    PlaylistInv (step op s).1 := by
  cases op with
  | addUrl l aok cok rok =>
    show PlaylistInv (add_track_by_url l aok cok rok s).1
    rw [add_track_by_url_eq]
    by_cases hurl : (py_strip s.url_var == "") = true
    · rw [if_pos hurl]
      exact h
    · rcases lazyCreate_outcome cok s with hn | ⟨hs, hu⟩
      · rw [if_neg hurl, if_pos hn]
        exact addUrlTry_PlaylistInv l aok rok (lazyCreate_PlaylistInv cok h)
      · rw [if_neg hurl, if_neg (by simp [hu])]
        exact lazyCreate_PlaylistInv cok h
  | addSearch aok cok rok =>
    show PlaylistInv (add_to_playlist aok cok rok s).1
    rw [add_to_playlist_eq]
    rcases lazyCreate_outcome cok s with hn | ⟨hs, hu⟩
    · rw [if_pos hn]
      exact addCommit_PlaylistInv aok rok (lazyCreate_PlaylistInv cok h)
    · rw [if_neg (by simp [hu])]
      exact lazyCreate_PlaylistInv cok h
  | skip rok =>
    have hf := step_other_playlist_fields (Op.skip rok) s (by simp [IsAdd])
    exact playlistInv_of_fields hf.1 hf.2.1 hf.2.2 h
  | search r rok =>
    have hf := step_other_playlist_fields (Op.search r rok) s (by simp [IsAdd])
    exact playlistInv_of_fields hf.1 hf.2.1 hf.2.2 h
  | playPreview u d rok =>
    have hf := step_other_playlist_fields (Op.playPreview u d rok) s
      (by simp [IsAdd])
    exact playlistInv_of_fields hf.1 hf.2.1 hf.2.2 h
  | playLocal fe lo =>
    have hf := step_other_playlist_fields (Op.playLocal fe lo) s
      (by simp [IsAdd])
    exact playlistInv_of_fields hf.1 hf.2.1 hf.2.2 h
  | stopPreviewBtn rok =>
    have hf := step_other_playlist_fields (Op.stopPreviewBtn rok) s
      (by simp [IsAdd])
    exact playlistInv_of_fields hf.1 hf.2.1 hf.2.2 h
  | stopLocalBtn =>
    have hf := step_other_playlist_fields Op.stopLocalBtn s (by simp [IsAdd])
    exact playlistInv_of_fields hf.1 hf.2.1 hf.2.2 h

lemma addUrlTry_some (l : Except Unit Track) (aok rok : Bool) (s1 : AppState)
    (h : (addUrlTry l aok rok s1).2 = Outcome.normal) :
    (addUrlTry l aok rok s1).1.playlist_id.isSome := by
  unfold addUrlTry at h ⊢
  repeat' split at h
  all_goals simp_all [go_to_next_file, stop_preview_audio, stop_local_audio]

lemma lazyCreate_some (cok : Bool) (s : AppState)
    (hname : truthy s.playlist_name = true) (hsp : s.sp = true)
    (hn : (lazyCreate cok s).2 = Outcome.normal) :
    (lazyCreate cok s).1.playlist_id.isSome := by
  unfold lazyCreate create_playlist at hn ⊢
  repeat' split at hn
  all_goals (repeat' split)
  all_goals
    simp_all [Option.isNone_iff_eq_none, Option.ne_none_iff_isSome]

lemma addCommit_id (aok rok : Bool) (s1 : AppState) :
    (addCommit aok rok s1).1.playlist_id = s1.playlist_id := by
  unfold addCommit
  repeat' split
  all_goals try simp [go_to_next_file, stop_preview_audio, stop_local_audio]

lemma addUrl_completed_some (l : Except Unit Track) (aok cok rok : Bool)
    (s : AppState)
    (h : (add_track_by_url l aok cok rok s).2 = Outcome.normal) :
    (add_track_by_url l aok cok rok s).1.playlist_id.isSome := by
  rw [add_track_by_url_eq] at h ⊢
  by_cases hurl : (py_strip s.url_var == "") = true
  · rw [if_pos hurl] at h
    cases h
  · rcases lazyCreate_outcome cok s with hn | ⟨_, hu⟩
    · rw [if_neg hurl, if_pos hn] at h ⊢
      exact addUrlTry_some l aok rok _ h
    · rw [if_neg hurl, if_neg (by simp [hu]), hu] at h
      cases h

lemma addSearch_completed_some (aok cok rok : Bool) (s : AppState)
    (hname : truthy s.playlist_name = true) (hsp : s.sp = true)
    (h : (add_to_playlist aok cok rok s).2 = Outcome.normal) :
    (add_to_playlist aok cok rok s).1.playlist_id.isSome := by
  rw [add_to_playlist_eq] at h ⊢
  rcases lazyCreate_outcome cok s with hn | ⟨_, hu⟩
  · rw [if_pos hn] at h ⊢
    rw [addCommit_id]
    exact lazyCreate_some cok s hname hsp hn
  · rw [if_neg (by simp [hu]), hu] at h
    cases h

lemma add_completed_some (op : Op) (s : AppState) (hop : IsAdd op)
    (hname : truthy s.playlist_name = true) (hsp : s.sp = true)
    (h : Completed op s) : (step op s).1.playlist_id.isSome := by
  cases op with
  | addUrl l aok cok rok => exact addUrl_completed_some l aok cok rok s h
  | addSearch aok cok rok =>
    exact addSearch_completed_some aok cok rok s hname hsp h
  | skip rok => simp [IsAdd] at hop
  | search r rok => simp [IsAdd] at hop
  | playPreview u d rok => simp [IsAdd] at hop
  | playLocal fe lo => simp [IsAdd] at hop
  | stopPreviewBtn rok => simp [IsAdd] at hop
  | stopLocalBtn => simp [IsAdd] at hop

lemma runOps_adds_playlist (ops : List Op) (s : AppState)
    (hinv : PlaylistInv s)
    (hname : truthy s.playlist_name = true) (hsp : s.sp = true)
    (hops : ∀ op ∈ ops, IsAdd op) (hcomp : AllCompleted ops s)
    (hne : ops ≠ []) :
    PlaylistInv (runOps ops s) ∧ (runOps ops s).playlist_id.isSome := by
  induction ops generalizing s with
  | nil => exact absurd rfl hne
  | cons op rest ih =>
    cases hcomp with
    | cons hc hrest =>
      have hop := hops op (by simp)
      have hinv1 := step_PlaylistInv op s hinv
      have henv := step_preserves_env op s
      have hsome1 := add_completed_some op s hop hname hsp hc
      cases rest with
      | nil => exact ⟨hinv1, hsome1⟩
      | cons r rs =>
        simp only [runOps]
        exact ih (step op s).1 hinv1 (by rw [henv.1]; exact hname)
          (by rw [henv.2]; exact hsp)
          (fun o ho => hops o (by simp [ho])) hrest (by simp)

/-- C3: within one session (truthy playlist name, client available,
playlist not yet created), after any non-empty sequence of completed add
operations exactly one `user_playlist_create` call has occurred and every
`playlist_add_items` call used the stored playlist id. -/
theorem playlist_created_once (ops : List Op) (s : AppState)
    (hname : truthy s.playlist_name = true) (hsp : s.sp = true)
    (hfresh : s.playlist_id = none) (hc0 : s.create_calls = 0)
    (ha0 : s.append_calls = []) (hops : ∀ op ∈ ops, IsAdd op)
    (hcomp : AllCompleted ops s) (hne : ops ≠ []) :
    (runOps ops s).create_calls = 1 ∧
    ∃ pid, (runOps ops s).playlist_id = some pid ∧
      ∀ e ∈ (runOps ops s).append_calls, e.1 = pid := by
  have hinv : PlaylistInv s :=
    ⟨fun _ => ⟨hc0, ha0⟩, fun pid hpid => by rw [hfresh] at hpid; cases hpid⟩
  obtain ⟨hinvf, hsome⟩ :=
    runOps_adds_playlist ops s hinv hname hsp hops hcomp hne
  obtain ⟨pid, hpid⟩ := Option.isSome_iff_exists.mp hsome
  obtain ⟨hc, ha⟩ := hinvf.2 pid hpid
  exact ⟨hc, pid, hpid, ha⟩

lemma addUrlTry_failure (l : Except Unit Track) (aok rok : Bool)
    (s1 : AppState)
    (hfail : (∃ e, l = Except.error e) ∨
      ∃ t, l = Except.ok t ∧ t.type ≠ "track") :
    (addUrlTry l aok rok s1).1.current_index = s1.current_index ∧
    (addUrlTry l aok rok s1).1.skipped_songs = s1.skipped_songs ∧
    (addUrlTry l aok rok s1).1.append_calls = s1.append_calls := by
  unfold addUrlTry
  rcases hfail with ⟨e, rfl⟩ | ⟨t, rfl, htype⟩ <;>
    (repeat' split) <;> simp_all

/-- C4: a failed add-by-direct-reference (the reference does not resolve,
or the resolved entity is not a track) leaves the cursor, the skipped
list, and the playlist appends unchanged. -/
theorem add_by_url_failure_spec (l : Except Unit Track)
    (aok cok rok : Bool) (s : AppState)
    (hfail : (∃ e, l = Except.error e) ∨
      ∃ t, l = Except.ok t ∧ t.type ≠ "track") :
    (add_track_by_url l aok cok rok s).1.current_index = s.current_index ∧
    (add_track_by_url l aok cok rok s).1.skipped_songs = s.skipped_songs ∧
    (add_track_by_url l aok cok rok s).1.append_calls = s.append_calls := by
  rw [add_track_by_url_eq]
  obtain ⟨f1, f2, f3, _⟩ := lazyCreate_fields cok s
  by_cases hurl : (py_strip s.url_var == "") = true
  · rw [if_pos hurl]
    exact ⟨rfl, rfl, rfl⟩
  · rcases lazyCreate_outcome cok s with hn | ⟨hs, hu⟩
    · rw [if_neg hurl, if_pos hn]
      obtain ⟨g1, g2, g3⟩ := addUrlTry_failure l aok rok (lazyCreate cok s).1
        hfail
      exact ⟨by rw [g1, f1], by rw [g2, f2], by rw [g3, f3]⟩
    · rw [if_neg hurl, if_neg (by simp [hu]), hs]
      exact ⟨rfl, rfl, rfl⟩

/-- A concrete mid-session state used to instantiate the theorems. -/
def sampleState : AppState :=
  { playlist_name := some "Road Trip"
    sp := true
    audio_files := [FileEntry.mk "d" "a.mp3", FileEntry.mk "d" "b.mp3"]
    current_index := 0
    skipped_songs := []
    playlist_id := none
    create_calls := 0
    append_calls := []
    query_var := "q"
    track_var := "spotify:track:1"
    url_var := "https:u"
    displayed := []
    current_filepath := some (FileEntry.mk "d" "a.mp3")
    preview_temp_path := none
    temp_counter := 0
    disk := []
    mixer := none
    log := [] }

/-- Counterexample to C10 as stated: with an empty selected uri, a fresh
playlist id, a truthy name and a live client, a raising lazy-creation
call (which sits outside any `try`) aborts `add_to_playlist` before
`go_to_next_file`, so the cursor does NOT advance by one. -/
theorem add_empty_uri_create_raises_cex :
    (add_to_playlist true false true
      { sampleState with track_var := "" }).2 = Outcome.uncaught ∧
    (add_to_playlist true false true
      { sampleState with track_var := "" }).1.current_index =
      { sampleState with track_var := "" }.current_index ∧
    (add_to_playlist true false true
      { sampleState with track_var := "" }).1.current_index ≠
      { sampleState with track_var := "" }.current_index + 1 :=
  ⟨rfl, rfl, by decide⟩

/-- C10 (amended): committing the add-by-search with an empty selected
uri appends nothing and records nothing in the skipped list; the cursor
advances by one exactly when the lazy playlist-creation step returns
normally; if the creation call raises, the handler aborts with the state
entirely unchanged and the cursor unmoved. -/
theorem add_empty_uri_spec (aok cok rok : Bool) (s : AppState)
    (h : s.track_var = "") :
    ((lazyCreate cok s).2 = Outcome.normal →
      (add_to_playlist aok cok rok s).1.append_calls = s.append_calls ∧
      (add_to_playlist aok cok rok s).1.skipped_songs = s.skipped_songs ∧
      (add_to_playlist aok cok rok s).1.current_index = s.current_index + 1 ∧
      (add_to_playlist aok cok rok s).2 = Outcome.normal) ∧
    ((lazyCreate cok s).2 = Outcome.uncaught →
      (add_to_playlist aok cok rok s).1 = s ∧
      (add_to_playlist aok cok rok s).2 = Outcome.uncaught) := by
  obtain ⟨f1, f2, f3, f4, _, _, _⟩ := lazyCreate_fields cok s
  constructor
  · intro hn
    rw [add_to_playlist_eq, if_pos hn]
    unfold addCommit
    rw [f4, h]
    simp [go_to_next_file, stop_preview_audio, stop_local_audio, f1, f2, f3]
  · intro hu
    rcases lazyCreate_outcome cok s with hn | ⟨hs, hu2⟩
    · rw [hn] at hu
      cases hu
    · rw [add_to_playlist_eq, if_neg (by simp [hu2])]
      exact ⟨hs, hu2⟩

lemma search_submit_keeps (r : Except Unit (List Track)) (t : AppState) :
    (search_submit r t).1.current_index = t.current_index ∧
    (search_submit r t).1.skipped_songs = t.skipped_songs ∧
    (search_submit r t).1.append_calls = t.append_calls ∧
    (search_submit r t).1.preview_temp_path = t.preview_temp_path ∧
    (search_submit r t).1.mixer = t.mixer := by
  unfold search_submit
  repeat' split
  all_goals exact ⟨rfl, rfl, rfl, rfl, rfl⟩

lemma lazyCreate_true_normal (s : AppState) :
    (lazyCreate true s).2 = Outcome.normal := by
  unfold lazyCreate create_playlist
  repeat' split
  all_goals try rfl
  all_goals exact absurd rfl (by assumption)

lemma addUrlTry_error (aok rok : Bool) (e : Unit) (s1 : AppState) :
    (addUrlTry (Except.error e) aok rok s1).2 = Outcome.handledError := by
  unfold addUrlTry
  repeat' split
  all_goals simp_all

lemma addCommit_fail (rok : Bool) (s1 : AppState) (h : s1.track_var ≠ "") :
    (addCommit false rok s1).2 = Outcome.uncaught ∧
    (addCommit false rok s1).1.current_index = s1.current_index ∧
    (addCommit false rok s1).1.append_calls = s1.append_calls := by
  unfold addCommit
  repeat' split
  all_goals simp_all

/-- C5 (amended): catalog-client errors raised inside the try block of
the direct-reference add (track lookup, playlist append) are caught at
the call site and surfaced as a message; the lazy playlist-creation call
runs before that try block and, if it raises, escapes the handler with
the state unchanged; errors raised by the search call and by the
add-by-search append likewise escape uncaught; and every such failure
leaves the cursor, the skipped list and the playlist appends unchanged —
in particular a failed add-to-playlist leaves the playlist unmodified
and the cursor unmoved. -/
theorem error_handling_amended :
    (∀ (s : AppState) (aok rok : Bool) (e : Unit),
      (add_track_by_url (Except.error e) aok true rok s).2 =
        Outcome.handledError) ∧
    (∀ (s : AppState) (l : Except Unit Track) (aok rok : Bool),
      s.playlist_id = none → truthy s.playlist_name = true → s.sp = true →
      py_strip s.url_var ≠ "" →
      (add_track_by_url l aok false rok s).1 = s ∧
      (add_track_by_url l aok false rok s).2 = Outcome.uncaught) ∧
    (∀ (r : Except Unit (List Track)) (rok : Bool) (s : AppState),
      (search_spotify r rok s).1.current_index = s.current_index ∧
      (search_spotify r rok s).1.skipped_songs = s.skipped_songs ∧
      (search_spotify r rok s).1.append_calls = s.append_calls) ∧
    (∀ (s : AppState) (rok : Bool) (e : Unit),
      py_strip s.query_var ≠ "" → s.sp = true →
      (search_spotify (Except.error e) rok s).2 = Outcome.uncaught) ∧
    (∀ (s : AppState) (rok : Bool), s.track_var ≠ "" →
      (add_to_playlist false true rok s).2 = Outcome.uncaught ∧
      (add_to_playlist false true rok s).1.current_index = s.current_index ∧
      (add_to_playlist false true rok s).1.append_calls = s.append_calls) := by
  refine ⟨?_, ?_, ?_, ?_, ?_⟩
  · intro s aok rok e
    rw [add_track_by_url_eq]
    by_cases hurl : (py_strip s.url_var == "") = true
    · rw [if_pos hurl]
    · rw [if_neg hurl, if_pos (lazyCreate_true_normal s)]
      exact addUrlTry_error aok rok e _
  · intro s l aok rok hid hname hsp hurl
    have hc : lazyCreate false s = (s, Outcome.uncaught) := by
      unfold lazyCreate create_playlist
      simp [hid, hname, hsp]
    rw [add_track_by_url_eq, if_neg (by simpa using hurl),
      if_neg (by simp [hc]), hc]
    exact ⟨rfl, rfl⟩
  · intro r rok s
    obtain ⟨k1, k2, k3, _, _⟩ := search_submit_keeps r
      (stop_preview_audio rok
        { s with displayed := [], log := s.log ++ [Event.clearResults] })
    unfold search_spotify
    rw [k1, k2, k3]
    simp [stop_preview_audio]
  · intro s rok e hq hsp
    unfold search_spotify search_submit
    simp [stop_preview_audio, hq, hsp]
  · intro s rok h
    obtain ⟨f1, f2, f3, f4, _, _, _⟩ := lazyCreate_fields true s
    rw [add_to_playlist_eq, if_pos (lazyCreate_true_normal s)]
    have hcf := addCommit_fail rok (lazyCreate true s).1 (by rw [f4]; exact h)
    exact ⟨hcf.1, by rw [hcf.2.1, f1], by rw [hcf.2.2, f3]⟩

/-- Counterexample to C5 as stated: a raising `sp.search` call on a
live session is an uncaught exception escaping the handler, not an error
caught at the point of the call and surfaced as a message. -/
theorem search_error_not_caught_cex :
    (search_spotify (Except.error ()) true sampleState).2 =
      Outcome.uncaught ∧
    (search_spotify (Except.error ()) true sampleState).2 ≠
      Outcome.handledError := by
  constructor
  · rfl
  · decide

/-- C8: every search trigger clears the previous result set and stops
any in-flight preview (music channel stopped, stored temp path cleared)
before submitting the query with limit 5; non-empty results select the
top track by default; empty query and empty results are valid normal
states displaying nothing selectable. -/
theorem search_spec (resp : Except Unit (List Track)) (rok : Bool)
    (s : AppState) (hsp : s.sp = true) :
    ((search_spotify resp rok s).1.preview_temp_path = none) ∧
    ((search_spotify resp rok s).1.mixer = none) ∧
    (py_strip s.query_var = "" →
      (search_spotify resp rok s).2 = Outcome.normal ∧
      (search_spotify resp rok s).1.displayed = [] ∧
      (search_spotify resp rok s).1.log =
        s.log ++ [Event.clearResults, Event.stopPreview]) ∧
    (py_strip s.query_var ≠ "" → ∀ tracks, resp = Except.ok tracks →
      (search_spotify resp rok s).1.log =
        s.log ++ [Event.clearResults, Event.stopPreview,
          Event.searchRequest (py_strip s.query_var) 5] ∧
      (search_spotify resp rok s).2 = Outcome.normal ∧
      (tracks = [] → (search_spotify resp rok s).1.displayed = []) ∧
      (∀ t ts, tracks = t :: ts →
        (search_spotify resp rok s).1.displayed = tracks ∧
        (search_spotify resp rok s).1.track_var = t.uri)) := by
  by_cases hq : py_strip s.query_var = ""
  · refine ⟨?_, ?_, fun _ => ?_, fun hq2 => absurd hq hq2⟩
    · simp [search_spotify, search_submit, stop_preview_audio, hq]
    · simp [search_spotify, search_submit, stop_preview_audio, hq]
    · refine ⟨?_, ?_, ?_⟩ <;>
        simp [search_spotify, search_submit, stop_preview_audio, hq]
  · cases resp with
    | error e =>
      refine ⟨?_, ?_, fun hq2 => absurd hq2 hq,
        fun _ tracks htr => Except.noConfusion htr⟩
      · simp [search_spotify, search_submit, stop_preview_audio, hq, hsp]
      · simp [search_spotify, search_submit, stop_preview_audio, hq, hsp]
    | ok tracks =>
      refine ⟨?_, ?_, fun hq2 => absurd hq2 hq, fun _ tracks2 htr => ?_⟩
      · cases tracks <;>
          simp [search_spotify, search_submit, stop_preview_audio, hq, hsp]
      · cases tracks <;>
          simp [search_spotify, search_submit, stop_preview_audio, hq, hsp]
      · obtain rfl : tracks = tracks2 := by injection htr
        refine ⟨?_, ?_, fun hnil => ?_, fun t ts hcons => ?_⟩
        · cases tracks <;>
            simp [search_spotify, search_submit, stop_preview_audio, hq, hsp]
        · cases tracks <;>
            simp [search_spotify, search_submit, stop_preview_audio, hq, hsp]
        · subst hnil
          simp [search_spotify, search_submit, stop_preview_audio, hq, hsp]
        · subst hcons
          constructor <;>
            simp [search_spotify, search_submit, stop_preview_audio, hq, hsp]

/-- Counterexample to C9 as stated: playing a preview and then starting
local playback supersedes the preview, yet its temporary file is still on
disk (only `stop_preview_audio` removes it, and `play_local_audio` never
calls it). -/
theorem preview_leak_cex :
    ((play_local_audio true true
        (play_spotify_preview true true true sampleState).1).1.mixer =
      some (AudioSrc.localFile (FileEntry.mk "d" "a.mp3"))) ∧
    ((play_local_audio true true
        (play_spotify_preview true true true
          sampleState).1).1.preview_temp_path = some 0) ∧
    (0 ∈ (play_local_audio true true
        (play_spotify_preview true true true sampleState).1).1.disk) := by
  refine ⟨rfl, rfl, ?_⟩
  decide

/-- C9 (amended): after any local-playback invocation the single music
channel holds no preview stream (at most one stream, never the preview);
the preview temp file is removed when `stop_preview_audio` runs —
directly, on advancing, or on starting a replacement preview — provided
the best-effort `os.remove` succeeds, and the stored path is cleared
even when it fails (leaving the file on disk); starting local playback
stops all playback but never attempts removal: the stored path and the
file on disk both survive. -/
theorem playback_exclusion_amended :
    (∀ (fe lo : Bool) (s : AppState),
      (play_local_audio fe lo s).1.mixer = none ∨
      ∃ f, (play_local_audio fe lo s).1.mixer =
        some (AudioSrc.localFile f)) ∧
    (∀ (s : AppState) (u : Nat), s.preview_temp_path = some u →
      (stop_preview_audio true s).preview_temp_path = none ∧
      u ∉ (stop_preview_audio true s).disk ∧
      (stop_preview_audio false s).preview_temp_path = none ∧
      (stop_preview_audio false s).disk = s.disk ∧
      u ∉ (go_to_next_file true s).disk ∧
      (play_spotify_preview true true true s).1.disk =
        s.temp_counter :: s.disk.filter (fun x => x != u)) ∧
    (∀ (fe lo : Bool) (s : AppState) (u : Nat),
      s.preview_temp_path = some u →
      (play_local_audio fe lo s).1.preview_temp_path = some u ∧
      (play_local_audio fe lo s).1.disk = s.disk) := by
  refine ⟨?_, ?_, ?_⟩
  · intro fe lo s
    simp only [play_local_audio, stop_local_audio]
    repeat' split
    all_goals try exact Or.inl rfl
    all_goals exact Or.inr ⟨_, rfl⟩
  · intro s u hu
    refine ⟨rfl, ?_, rfl, ?_, ?_, ?_⟩
    · simp [stop_preview_audio, hu, List.mem_filter]
    · simp [stop_preview_audio, hu]
    · simp [go_to_next_file, stop_preview_audio, stop_local_audio, hu,
        List.mem_filter]
    · simp [play_spotify_preview, stop_preview_audio, hu]
  · intro fe lo s u hu
    simp only [play_local_audio, stop_local_audio]
    refine ⟨?_, ?_⟩ <;> (simp only [hu]; repeat' split) <;> try rfl

/-- Witness for C6: two completed skips advance the cursor from 0 to 2. -/
theorem cursor_monotonicity_witness :
    (runOps [Op.skip true, Op.skip true] sampleState).current_index =
      sampleState.current_index + 2 :=
  (cursor_monotonicity [Op.skip true, Op.skip true] sampleState
    (by intro op hop; simp at hop; rcases hop with rfl | rfl <;> trivial)
    (AllCompleted.cons rfl (AllCompleted.cons rfl (AllCompleted.nil _)))).1

/-- Witness for C7: skipping both sample files records their basenames. -/
theorem skip_bookkeeping_witness :
    (runOps (List.replicate 2 (Op.skip true)) sampleState).skipped_songs =
      sampleState.skipped_songs ++
        ((sampleState.audio_files.drop sampleState.current_index).take 2).map
          FileEntry.base ∧
    (runOps (List.replicate 2 (Op.skip true)) sampleState).append_calls =
      sampleState.append_calls ∧
    (runOps (List.replicate 2 (Op.skip true)) sampleState).create_calls =
      sampleState.create_calls :=
  skip_bookkeeping sampleState 2 true (by decide)

/-- Witness for C3: one successful add-by-url from a fresh session
creates the playlist exactly once. -/
theorem playlist_created_once_witness :
    (runOps [Op.addUrl (Except.ok (Track.mk "spotify:track:9" "track" "X"))
      true true true] sampleState).create_calls = 1 ∧
    ∃ pid,
      (runOps [Op.addUrl (Except.ok (Track.mk "spotify:track:9" "track" "X"))
        true true true] sampleState).playlist_id = some pid ∧
      ∀ e ∈ (runOps
        [Op.addUrl (Except.ok (Track.mk "spotify:track:9" "track" "X"))
          true true true] sampleState).append_calls, e.1 = pid :=
  playlist_created_once _ sampleState rfl rfl rfl rfl rfl
    (by intro op hop; simp at hop; subst hop; trivial)
    (AllCompleted.cons rfl (AllCompleted.nil _)) (by simp)

/-- Witness for C4: a failing lookup leaves the sample state in place. -/
theorem add_by_url_failure_spec_witness :
    (add_track_by_url (Except.error ()) true true true
      sampleState).1.current_index = sampleState.current_index ∧
    (add_track_by_url (Except.error ()) true true true
      sampleState).1.skipped_songs = sampleState.skipped_songs ∧
    (add_track_by_url (Except.error ()) true true true
      sampleState).1.append_calls = sampleState.append_calls :=
  add_by_url_failure_spec (Except.error ()) true true true sampleState
    (Or.inl ⟨(), rfl⟩)

/-- The sample state with an empty selected track uri. -/
def emptyUriState : AppState :=
  { sampleState with track_var := "" }

/-- Witness for the amended C10: with a succeeding creation the commit
passes the file over and advances; with a raising creation it aborts
with the state unchanged. -/
theorem add_empty_uri_spec_witness :
    ((add_to_playlist true true true emptyUriState).1.append_calls =
        emptyUriState.append_calls ∧
      (add_to_playlist true true true emptyUriState).1.skipped_songs =
        emptyUriState.skipped_songs ∧
      (add_to_playlist true true true emptyUriState).1.current_index =
        emptyUriState.current_index + 1 ∧
      (add_to_playlist true true true emptyUriState).2 = Outcome.normal) ∧
    ((add_to_playlist true false true emptyUriState).1 = emptyUriState ∧
      (add_to_playlist true false true emptyUriState).2 =
        Outcome.uncaught) :=
  ⟨(add_empty_uri_spec true true true emptyUriState rfl).1 rfl,
   (add_empty_uri_spec true false true emptyUriState rfl).2 rfl⟩

/-- Witness for the amended C5: a failing append in the search commit is
not caught but leaves the playlist and cursor in place, and a raising
lazy creation in the direct-reference add escapes uncaught with the
state unchanged. -/
theorem error_handling_amended_witness :
    ((add_to_playlist false true true sampleState).2 = Outcome.uncaught ∧
      (add_to_playlist false true true sampleState).1.current_index =
        sampleState.current_index ∧
      (add_to_playlist false true true sampleState).1.append_calls =
        sampleState.append_calls) ∧
    ((add_track_by_url (Except.ok (Track.mk "u" "track" "N")) true false true
        sampleState).1 = sampleState ∧
      (add_track_by_url (Except.ok (Track.mk "u" "track" "N")) true false true
        sampleState).2 = Outcome.uncaught) :=
  ⟨error_handling_amended.2.2.2.2 sampleState true (by decide),
   error_handling_amended.2.1 sampleState
     (Except.ok (Track.mk "u" "track" "N")) true true rfl rfl rfl (by decide)⟩

/-- Witness for C8: a successful one-result search on the sample state
logs clear/stop before the limit-5 request and selects the top result. -/
theorem search_spec_witness :
    (search_spotify (Except.ok [Track.mk "u1" "track" "T1"]) true
      sampleState).1.log =
      sampleState.log ++ [Event.clearResults, Event.stopPreview,
        Event.searchRequest (py_strip sampleState.query_var) 5] ∧
    (search_spotify (Except.ok [Track.mk "u1" "track" "T1"]) true
      sampleState).2 = Outcome.normal ∧
    (search_spotify (Except.ok [Track.mk "u1" "track" "T1"]) true
      sampleState).1.displayed = [Track.mk "u1" "track" "T1"] ∧
    (search_spotify (Except.ok [Track.mk "u1" "track" "T1"]) true
      sampleState).1.track_var = (Track.mk "u1" "track" "T1").uri := by
  have h := (search_spec (Except.ok [Track.mk "u1" "track" "T1"]) true
    sampleState rfl).2.2.2 (by decide) [Track.mk "u1" "track" "T1"] rfl
  exact ⟨h.1, h.2.1, (h.2.2.2 (Track.mk "u1" "track" "T1") [] rfl).1,
    (h.2.2.2 (Track.mk "u1" "track" "T1") [] rfl).2⟩

/-- A sample state holding a downloaded preview temp file. -/
def previewState : AppState :=
  { sampleState with
      preview_temp_path := some 0
      disk := [0]
      temp_counter := 1 }

/-- Witness for the amended C9 at a state holding a preview temp file. -/
theorem playback_exclusion_amended_witness :
    ((stop_preview_audio true previewState).preview_temp_path = none) ∧
    (0 ∉ (stop_preview_audio true previewState).disk) ∧
    ((stop_preview_audio false previewState).disk = previewState.disk) ∧
    ((play_local_audio true true previewState).1.preview_temp_path =
        some 0 ∧
      (play_local_audio true true previewState).1.disk =
        previewState.disk) :=
  ⟨(playback_exclusion_amended.2.1 previewState 0 rfl).1,
   (playback_exclusion_amended.2.1 previewState 0 rfl).2.1,
   (playback_exclusion_amended.2.1 previewState 0 rfl).2.2.2.1,
   playback_exclusion_amended.2.2 true true previewState 0 rfl⟩

end SpotifySearch
